import Mathlib

/-!
# Verification of the `zif-terminal/lib` exchange-ingestion library

A shallow embedding, in Lean 4, of the Go sources of `zif-terminal/lib`:

* `db/funding_payment.go` — resilient batch persistence of funding payments
  (`AddFundingPayments`, `addFundingPaymentsIndividually`, `isDuplicateError`,
  `GetLatestFundingPayment`);
* `exchange/hyperliquid/client.go` — the Hyperliquid adapter
  (`FetchTrades`, `transformFill`, `normalizeSide`, `parseTimestamp`,
  `parseAssetPair`, `convertToString`, `parseRetryAfter`);
* `models/trade.go` — the database-model numeric normalization
  (`convertToString` of the `models` package);
* the exchange registry (`GetClient`, `ErrExchangeNotFound`).

Conventions of the embedding:

* Instants (`time.Time`) are modelled by `Time := Int`, the number of
  nanoseconds since the Unix epoch.  `time.Time.IsZero` becomes equality with
  `timeZero`, `Before` becomes `<`.  Time-zone presentation (`.UTC()`) is not
  observable in this instant-level model.
* `int64` arithmetic overflow is made explicit with `wrap64` where the Go code
  multiplies (`ms * int64(time.Millisecond)`).
* Dynamically typed wire values (`interface{}` fields decoded from JSON) are
  modelled by small inductive types with one constructor per `switch` arm of
  the Go code.  A Go `float64` is modelled by the exact rational value of the
  floating-point number; every concrete rational used in a theorem below is a
  dyadic rational that a `float64` represents exactly.
* External collaborators (the Hasura GraphQL backend reached through the thin
  `db/client.go` pass-through, and the remote exchange HTTP endpoint) are
  modelled as explicit oracle parameters; where a theorem needs concrete
  duplicate-key semantics, the backend oracle implements the unique-constraint
  behaviour the write path is documented against.
* Go functions that can loop through unbounded mutual recursion
  (`AddFundingPayments` ↔ `addFundingPaymentsIndividually`) are embedded with
  an explicit fuel parameter; `none` is returned exactly when the recursion
  depth exceeds the fuel, so divergence of the Go code at an input is the
  statement that the embedding returns `none` for every fuel.
-/

namespace ZifLib

/-! ## Basic machine-value helpers -/

/-- Wrap an unbounded integer into the two's-complement `int64` range,
the way Go `int64` arithmetic overflows. -/
def wrap64 (x : Int) : Int :=
  (x + 2 ^ 63) % 2 ^ 64 - 2 ^ 63

/-- An instant: nanoseconds since the Unix epoch (models Go `time.Time`
at the level of the instant it denotes). -/
abbrev Time := Int

/-- The zero `time.Time` (what `time.Time{}.IsZero()` recognises).  In the
instant model the zero value is identified with the epoch origin, which is the
only property the analysed code observes through `IsZero`/`Before`. -/
def timeZero : Time := 0

/-- Models Go `time.Unix(0, ms*int64(time.Millisecond))`: the multiplication
is `int64` arithmetic and can wrap. -/
def unixMilliToTime (ms : Int) : Time :=
  wrap64 (ms * 1000000)

/-! ## String helpers used by the Go sources

(All implemented over character lists so that they compute inside the
kernel; the strings this library manipulates are ASCII.) -/

/-- ASCII lower-casing of one character (models Go `strings.ToLower` on the
ASCII error texts and side codes this library handles). -/
def asciiToLower (c : Char) : Char :=
  if 'A' ≤ c ∧ c ≤ 'Z' then Char.ofNat (c.toNat + 32) else c

/-- ASCII upper-casing of one character. -/
def asciiToUpper (c : Char) : Char :=
  if 'a' ≤ c ∧ c ≤ 'z' then Char.ofNat (c.toNat - 32) else c

/-- Go `strings.ToLower`. -/
def strToLower (s : String) : String := String.mk (s.toList.map asciiToLower)

/-- Go `strings.ToUpper`. -/
def strToUpper (s : String) : String := String.mk (s.toList.map asciiToUpper)

/-- White space as Go `strings.TrimSpace` sees it (ASCII cut set). -/
def isSpaceChar (c : Char) : Bool :=
  c = ' ' || c = '\t' || c = '\n' || c = '\r' || c.toNat = 11 || c.toNat = 12

/-- Go `strings.TrimSpace`. -/
def trimSpace (s : String) : String :=
  String.mk (((s.toList.dropWhile isSpaceChar).reverse.dropWhile isSpaceChar).reverse)

/-- Split a character list on a separator character (models Go
`strings.Split` with a one-character separator: the result always has one
more part than there are separators). -/
def splitOnChar (sep : Char) : List Char → List (List Char)
  | [] => [[]]
  | c :: rest =>
    let r := splitOnChar sep rest
    if c = sep then [] :: r
    else
      match r with
      | h :: t => (c :: h) :: t
      | [] => [[c]]

/-- Does `pat` occur as a contiguous substring of `s`?
(Models Go `strings.Contains`.) -/
def containsSubstr (s pat : String) : Bool :=
  s.toList.tails.any (fun t => pat.toList.isPrefixOf t)

/-- Remove every trailing occurrence of the character `c` from `s`.
(Models Go `strings.TrimRight(s, string(c))` for a one-character cutset.) -/
def trimRightChar (s : String) (c : Char) : String :=
  String.mk (((s.toList.reverse).dropWhile (fun x => x = c)).reverse)

/-- Left-pad a string with `'0'` up to length `n`. -/
def padLeftZeros (n : Nat) (s : String) : String :=
  String.mk (List.replicate (n - s.toList.length) '0') ++ s

/-! ## `db/funding_payment.go` — data model -/

/-- `models.FundingPaymentInput` (the fields the insert mutation sends). -/
structure FundingPaymentInput where
  exchangeAccountID : String
  baseAsset : String
  quoteAsset : String
  amount : String
  timestampMs : Int
  paymentID : String
deriving Repr, DecidableEq

/-- `models.FundingPayment`, as returned by the insert/select operations. -/
structure FundingPayment where
  exchangeAccountID : String
  baseAsset : String
  quoteAsset : String
  amount : String
  timestampMs : Int
  paymentID : String
deriving Repr, DecidableEq

/-- The stored record corresponding to an input (what the backend's
`returning` clause reports for a newly inserted row). -/
def recordOf (i : FundingPaymentInput) : FundingPayment :=
  { exchangeAccountID := i.exchangeAccountID
    baseAsset := i.baseAsset
    quoteAsset := i.quoteAsset
    amount := i.amount
    timestampMs := i.timestampMs
    paymentID := i.paymentID }

/-- `isDuplicateError` from `db/funding_payment.go`: lower-case the error text
and look for the known unique-constraint phrasings.  (The `err == nil` case of
the Go function corresponds to the `Except.ok` branch of callers and never
reaches this text test.) -/
def isDuplicateError (err : String) : Bool :=
  let errStr := strToLower err
  containsSubstr errStr "duplicate" ||
  containsSubstr errStr "unique constraint" ||
  containsSubstr errStr "violates unique constraint" ||
  containsSubstr errStr "already exists"

/-- The backend reached through `Client.execute` (a thin pass-through to the
GraphQL engine, `db/client.go`): given a backend state and the batch of
objects of one `insert_funding_payments` mutation, it returns the new state
and either the `returning` rows or an error text. -/
def ExecOracle (σ : Type) : Type :=
  σ → List FundingPaymentInput → σ × Except String (List FundingPayment)

/-- The `for _, input := range inputs` loop of
`addFundingPaymentsIndividually` from `db/funding_payment.go`: insert one
record at a time through the given single-record insert (in the source, a
recursive single-element `AddFundingPayments` call, received here as a
parameter so that the loop is structurally recursive), keep the successes,
drop the failures after recording them, and finally return the accumulated
successes with a nil error.  (The recorded `errors []string` slice of the Go
function is never returned nor read, so it is not part of the state.) -/
def addIndividuallyLoop {σ : Type}
    (insertOne : σ → FundingPaymentInput → Option (σ × Except String (List FundingPayment))) :
    σ → List FundingPaymentInput → List FundingPayment →
    Option (σ × Except String (List FundingPayment))
  | s, [], acc => some (s, Except.ok acc)
  | s, input :: rest, acc =>
    match insertOne s input with
    | none => none
    | some (s2, Except.ok payments) =>
      addIndividuallyLoop insertOne s2 rest (acc ++ payments)
    | some (s2, Except.error _) =>
      addIndividuallyLoop insertOne s2 rest acc

/-- `Client.addFundingPaymentsIndividually` from `db/funding_payment.go`:
run the per-record loop starting from an empty result accumulator. -/
def addFundingPaymentsIndividually {σ : Type}
    (insertOne : σ → FundingPaymentInput → Option (σ × Except String (List FundingPayment)))
    (s : σ) (inputs : List FundingPaymentInput) :
    Option (σ × Except String (List FundingPayment)) :=
  addIndividuallyLoop insertOne s inputs []

/-- `Client.AddFundingPayments` from `db/funding_payment.go`, embedded over an
explicit backend oracle and an explicit recursion-depth fuel (decremented at
the recursion into the per-record fallback, whose single-record inserts are
one call deeper in Go as well).  `none` means the mutual recursion between
`AddFundingPayments` and `addFundingPaymentsIndividually` exceeded the given
depth; the Go code has no such bound, so an input on which the result is
`none` for every fuel is an input on which the Go code never returns. -/
def AddFundingPayments {σ : Type} (exec : ExecOracle σ) :
    Nat → σ → List FundingPaymentInput →
    Option (σ × Except String (List FundingPayment))
  | 0, _, _ => none
  | Nat.succ fuel, s, inputs =>
    if inputs.length = 0 then some (s, Except.ok [])
    else
      match exec s inputs with
      | (s2, Except.ok returning) => some (s2, Except.ok returning)
      | (s2, Except.error e) =>
        if isDuplicateError e then
          addFundingPaymentsIndividually
            (fun s3 input => AddFundingPayments exec fuel s3 [input]) s2 inputs
        else
          some (s2, Except.error ("failed to add funding payments: " ++ e))

/-- The duplicate-rejecting insert of the storage engine behind the GraphQL
boundary (an external collaborator of this library; the write path is coded
against exactly this behaviour): the state is the list of already-stored
payment ids; inserting a batch that contains an already-stored `payment_id`
fails atomically with the engine's unique-constraint message, otherwise all
rows are stored and returned. -/
def uniqueConstraintExec : ExecOracle (List String) :=
  fun db inputs =>
    if inputs.any (fun i => db.contains i.paymentID) then
      (db, Except.error "duplicate key value violates unique constraint")
    else
      (db ++ inputs.map (fun i => i.paymentID),
        Except.ok (inputs.map recordOf))

/-! ## Timestamp parsing (`exchange/hyperliquid/client.go`) -/

/-- A dynamically typed timestamp wire value (`interface{}` in Go), one
constructor per arm of the `switch` in `parseTimestamp`: a JSON number
(`float64`, modelled by its exact rational value), an `int64`, a string, or
any other dynamic type (which falls through every `case`). -/
inductive TsValue where
  | num (q : ℚ)
  | int64 (n : Int)
  | str (s : String)
  | other
deriving Repr, DecidableEq

/-- Go's `int64(v)` conversion of a (finite, in-range) `float64`:
truncation toward zero of the exact value (computed on the reduced
numerator/denominator so that it evaluates inside the kernel). -/
def truncRat (q : ℚ) : Int :=
  (if q.num < 0 then -1 else 1) * ((q.num.natAbs / q.den : Nat) : Int)

/-- Numeric value of a decimal digit character. -/
def digitVal (c : Char) : Nat := c.toNat - '0'.toNat

/-- All-decimal-digit, non-empty character lists denote a natural number. -/
def digitsToNat? : List Char → Option Nat
  | [] => none
  | cs =>
    if cs.all Char.isDigit then
      some (cs.foldl (fun acc c => 10 * acc + digitVal c) 0)
    else none

/-- Go `strconv.ParseInt(s, 10, 64)`, as used by `parseTimestamp`,
`parseRetryAfter` and `strconv.Atoi`: an optional sign, then decimal digits,
failing on anything else and on values outside the `int64` range. -/
def goParseInt64 (s : String) : Option Int :=
  let cs := s.toList
  let signed : Bool × List Char :=
    match cs with
    | '-' :: rest => (true, rest)
    | '+' :: rest => (false, rest)
    | _ => (false, cs)
  match digitsToNat? signed.2 with
  | none => none
  | some n =>
    let v : Int := if signed.1 then -(n : Int) else (n : Int)
    if -(2 ^ 63) ≤ v ∧ v ≤ 2 ^ 63 - 1 then some v else none

/-- Gregorian leap-year test. -/
def isLeapYear (y : Nat) : Bool :=
  (y % 4 == 0 && y % 100 != 0) || (y % 400 == 0)

/-- Length of a month in the proleptic Gregorian calendar. -/
def daysInMonth (y m : Nat) : Nat :=
  if m = 2 then (if isLeapYear y then 29 else 28)
  else if m = 4 ∨ m = 6 ∨ m = 9 ∨ m = 11 then 30
  else 31

/-- Days between 1970-01-01 and the civil date `y-m-d` (proleptic Gregorian,
the era-based days-from-civil computation, shifted by 400 years to stay in
`Nat` for the year counters). -/
def daysFromCivil (y m d : Nat) : Int :=
  let yShift : Nat := if m ≤ 2 then y + 399 else y + 400
  let mp : Nat := (m + 9) % 12
  let era : Nat := yShift / 400
  let yoe : Nat := yShift % 400
  let doy : Nat := (153 * mp + 2) / 5 + d - 1
  let doe : Nat := yoe * 365 + yoe / 4 - yoe / 100 + doy
  (era : Int) * 146097 + (doe : Int) - (719468 + 146097)

/-- Nanoseconds denoted by the fractional-second digits (at most the first
nine digits are significant). -/
def fracNanos (ds : List Char) : Int :=
  let d9 := ds.take 9
  ((d9.foldl (fun acc c => 10 * acc + digitVal c) 0) * 10 ^ (9 - d9.length) : Nat)

/-- Time-zone suffix of an RFC 3339 string: `Z` or `±hh:mm`, giving the
offset east of UTC in seconds. -/
def parseZoneOffset : List Char → Option Int
  | ['Z'] => some 0
  | [sn, h1, h2, ':', m1, m2] =>
    if (sn = '+' ∨ sn = '-') ∧ h1.isDigit ∧ h2.isDigit ∧ m1.isDigit ∧ m2.isDigit then
      let zh := 10 * digitVal h1 + digitVal h2
      let zm := 10 * digitVal m1 + digitVal m2
      if zh ≤ 23 ∧ zm ≤ 59 then
        let mag : Int := zh * 3600 + zm * 60
        some (if sn = '-' then -mag else mag)
      else none
    else none
  | _ => none

/-- Optional `.digits` fraction followed by the zone suffix. -/
def parseFracAndZone : List Char → Option (Int × Int)
  | '.' :: rest =>
    let ds := rest.takeWhile Char.isDigit
    if ds.isEmpty then none
    else (parseZoneOffset (rest.dropWhile Char.isDigit)).map (fun off => (fracNanos ds, off))
  | rest => (parseZoneOffset rest).map (fun off => ((0 : Int), off))

/-- Go `time.Parse(time.RFC3339, s)`, modelled at the level the adapter uses
it: `YYYY-MM-DDTHH:MM:SS`, optional `.fraction`, then `Z` or `±hh:mm`, with
calendar/range validation; the result is the denoted instant. -/
def rfc3339Parse (s : String) : Option Time :=
  match s.toList with
  | y1 :: y2 :: y3 :: y4 :: '-' :: mo1 :: mo2 :: '-' :: d1 :: d2 :: 'T' ::
      h1 :: h2 :: ':' :: mi1 :: mi2 :: ':' :: se1 :: se2 :: rest =>
    if (y1.isDigit ∧ y2.isDigit ∧ y3.isDigit ∧ y4.isDigit ∧ mo1.isDigit ∧ mo2.isDigit ∧
        d1.isDigit ∧ d2.isDigit ∧ h1.isDigit ∧ h2.isDigit ∧ mi1.isDigit ∧ mi2.isDigit ∧
        se1.isDigit ∧ se2.isDigit) then
      let year := 1000 * digitVal y1 + 100 * digitVal y2 + 10 * digitVal y3 + digitVal y4
      let month := 10 * digitVal mo1 + digitVal mo2
      let day := 10 * digitVal d1 + digitVal d2
      let hour := 10 * digitVal h1 + digitVal h2
      let minute := 10 * digitVal mi1 + digitVal mi2
      let second := 10 * digitVal se1 + digitVal se2
      if 1 ≤ month ∧ month ≤ 12 ∧ 1 ≤ day ∧ day ≤ daysInMonth year month ∧
          hour ≤ 23 ∧ minute ≤ 59 ∧ second ≤ 59 then
        match parseFracAndZone rest with
        | some (fns, off) =>
          some ((daysFromCivil year month day * 86400 +
            (hour : Int) * 3600 + (minute : Int) * 60 + (second : Int) - off) * 1000000000 + fns)
        | none => none
      else none
    else none
  | _ => none

namespace Hyperliquid

/-- `parseTimestamp` from `exchange/hyperliquid/client.go`: milliseconds
since the epoch as a `float64`, an `int64`, or numeric text, else an
RFC 3339 string; every unmatched input falls through to the zero
`time.Time`. -/
def parseTimestamp : TsValue → Time
  | TsValue.num v => unixMilliToTime (truncRat v)
  | TsValue.int64 v => unixMilliToTime v
  | TsValue.str v =>
    match goParseInt64 v with
    | some ms => unixMilliToTime ms
    | none =>
      match rfc3339Parse v with
      | some t => t
      | none => timeZero
  | TsValue.other => timeZero

/-- The inputs `parseTimestamp` actually accepts: any number, numeric text,
or an RFC 3339 string. -/
def acceptedTimestampForm : TsValue → Bool
  | TsValue.num _ => true
  | TsValue.int64 _ => true
  | TsValue.str v => (goParseInt64 v).isSome || (rfc3339Parse v).isSome
  | TsValue.other => false

/-- The spec's timestamp-parsing error condition. -/
inductive TsError where
  | malformedTimestamp
deriving Repr, DecidableEq

/-- Modelled from the spec (comparison point for the `MalformedTimestamp`
refinement claim, not from the source): "accepts milliseconds-since-epoch as
a number, as numeric text, or as an RFC-3339 string; always normalizes to
UTC. Fails with a `MalformedTimestamp` condition if none of the accepted
forms match." -/
def parseTimestampSpec : TsValue → Except TsError Time
  | TsValue.num v => Except.ok (unixMilliToTime (truncRat v))
  | TsValue.int64 v => Except.ok (unixMilliToTime v)
  | TsValue.str v =>
    match goParseInt64 v with
    | some ms => Except.ok (unixMilliToTime ms)
    | none =>
      match rfc3339Parse v with
      | some t => Except.ok t
      | none => Except.error TsError.malformedTimestamp
  | TsValue.other => Except.error TsError.malformedTimestamp

/-- `normalizeSide`: trim, upper-case, then map the known side codes;
unknown codes default to `"buy"`. -/
def normalizeSide (side : String) : String :=
  let s := strToUpper (trimSpace side)
  if s = "B" ∨ s = "BUY" ∨ s = "LONG" then "buy"
  else if s = "S" ∨ s = "SELL" ∨ s = "SHORT" then "sell"
  else if s = "A" ∨ s = "CLOSE" ∨ s = "LIQUIDATION" then "sell"
  else "buy"

/-- `parseAssetPair`: split the composite symbol on `"-"`; with no separator
the whole symbol is the base asset and the quote defaults to `"USDC"`. -/
def parseAssetPair (coin : String) : String × String :=
  match (splitOnChar '-' coin.toList).map String.mk with
  | p0 :: p1 :: _ => (p0, p1)
  | _ => (coin, "USDC")

/-- A dynamically typed numeric-or-text wire value of a fill field
(`interface{}` in Go).  The `float64` arm of the Go `switch`
(`strconv.FormatFloat(val, 'f', -1, 64)`, shortest round-trip formatting of
the binary float) is floating-point behaviour outside this embedding and is
not taken by any value analysed below; the `default` arm (`fmt.Sprintf`) is
unreachable for JSON-decoded values. -/
inductive HLWire where
  | str (s : String)
  | int (n : Int)
deriving Repr, DecidableEq

/-- `convertToString` from `exchange/hyperliquid/client.go`, on the wire
values that occur here: text passes through, integers render in decimal
(`strconv.Itoa` / `strconv.FormatInt`). -/
def convertToString : HLWire → String
  | HLWire.str s => s
  | HLWire.int n => toString n

/-- `parseRetryAfter`: the `Retry-After` header in seconds, as a Go
`time.Duration` (nanoseconds); empty or non-numeric text gives 0. -/
def parseRetryAfter (retryAfter : String) : Int :=
  if retryAfter = "" then 0
  else
    match goParseInt64 retryAfter with
    | none => 0
    | some seconds => seconds * 1000000000

end Hyperliquid

/-! ## The Hyperliquid fetch path (`exchange/hyperliquid/client.go`) -/

/-- `models.ExchangeAccount`, at the fields `FetchTrades` reads. -/
structure ExchangeAccount where
  id : String
  accountIdentifier : String
deriving Repr, DecidableEq

/-- Hexadecimal digit test (both cases). -/
def isHexDigit (c : Char) : Bool :=
  c.isDigit || ('a' ≤ c && c ≤ 'f') || ('A' ≤ c && c ≤ 'F')

/-- `uuid.Parse` at the canonical `8-4-4-4-12` textual form (the only form
the analysed code paths feed it); the parsed value is carried as the
canonical string. -/
def parseUUID (s : String) : Option String :=
  let cs := s.toList
  if cs.length = 36 &&
      cs.enum.all (fun p =>
        if p.1 = 8 || p.1 = 13 || p.1 = 18 || p.1 = 23 then p.2 = '-'
        else isHexDigit p.2) then
    some s
  else none

/-- `hyperliquidFill` (the `userFills` element type): fields as decoded from
JSON.  `tid` is declared in the source as "Fill ID (unique per fill, used as
trade_id)"; `transformFill` below nevertheless never reads it. -/
structure HLFill where
  coin : String
  px : Hyperliquid.HLWire
  sz : Hyperliquid.HLWire
  side : String
  time : TsValue
  hash : String
  tid : TsValue
  oid : Hyperliquid.HLWire
  fee : Hyperliquid.HLWire
deriving Repr, DecidableEq

/-- `models.TradeInput` (write-ready trade record). -/
structure TradeInput where
  tradeID : String
  orderID : String
  baseAsset : String
  quoteAsset : String
  side : String
  price : String
  quantity : String
  fee : String
  timestamp : Time
  exchangeAccountID : String
deriving Repr, DecidableEq

namespace Hyperliquid

/-- The failure modes of `FetchTrades`, one constructor per `return nil, err`
site. -/
inductive FetchError where
  | ctxCanceled
  | invalidAccountID
  | missingAddress
  | rateLimited (exchange : String) (message : String) (retryAfterNs : Int)
  | httpError (status : Nat)
  | decodeError
deriving Repr, DecidableEq

/-- The JSON body `FetchTrades` posts to `/info` (`startTime` is modelled as
an optional field so that its absence from the request the code builds is
visible; the code never sets it). -/
structure HLRequest where
  rtype : String
  user : String
  startTime : Option Int
deriving Repr, DecidableEq

/-- One upstream HTTP exchange: status code, `Retry-After` header, and the
decoded `[]hyperliquidFill` body (`none` models a body that fails to decode
as a flat fill array). -/
structure HLResponse where
  status : Nat
  retryAfterHeader : String
  body : Option (List HLFill)

/-- The one request body `FetchTrades` builds:
`{"type": "userFills", "user": address}` — no cursor. -/
def initialRequest (account : ExchangeAccount) : HLRequest :=
  { rtype := "userFills", user := account.accountIdentifier, startTime := none }

/-- `transformFill` from `exchange/hyperliquid/client.go`.  Note the source:
the trade identifier is `apiFill.Hash` ("Use transaction hash as trade ID"),
`tid` is ignored, and no field is validated — the function always returns a
nil error, so the `Except` layer required by its Go signature is vacuous. -/
def transformFill (apiFill : HLFill) (accountUUID : String) : Except String TradeInput :=
  let side := normalizeSide apiFill.side
  let timestamp := parseTimestamp apiFill.time
  let price := convertToString apiFill.px
  let quantity := convertToString apiFill.sz
  let fee := convertToString apiFill.fee
  let pair := parseAssetPair apiFill.coin
  let orderID := convertToString apiFill.oid
  Except.ok
    { tradeID := apiFill.hash
      orderID := orderID
      baseAsset := pair.1
      quoteAsset := pair.2
      side := side
      price := price
      quantity := quantity
      fee := fee
      timestamp := timestamp
      exchangeAccountID := accountUUID }

/-- One iteration of the transform loop of `FetchTrades`: parse the
timestamp, apply the `since` filter (skipped when `since` is the zero
watermark), then transform, skipping fills whose transform fails. -/
def processFill (since : Time) (accountUUID : String) (apiFill : HLFill) :
    Option TradeInput :=
  let tradeTimestamp := parseTimestamp apiFill.time
  if ¬ since = timeZero ∧ tradeTimestamp < since then none
  else
    match transformFill apiFill accountUUID with
    | Except.ok tradeInput => some tradeInput
    | Except.error _ => none

/-- The timestamp ordering `FetchTrades` sorts by
(`sort.Slice` with `Before` as the strict comparison). -/
def tsLE (a b : TradeInput) : Prop := a.timestamp ≤ b.timestamp

instance : DecidableRel tsLE := fun a b => Int.decLe a.timestamp b.timestamp

instance : IsTotal TradeInput tsLE where
  total a b := Int.le_total a.timestamp b.timestamp

instance : IsTrans TradeInput tsLE where
  trans _ _ _ hab hbc := Int.le_trans hab hbc

/-- `Client.FetchTrades` from `exchange/hyperliquid/client.go`, embedded over
the caller's cancellation flag and an upstream oracle.  Besides the result it
returns the list of HTTP requests issued, in order (the body of the function
contains exactly one `httpClient.Do`).  The final `sort.Slice` is modelled by
insertion sort on the same non-strict timestamp order; it agrees with any
correct sort up to the order of equal-timestamp records. -/
def FetchTrades (canceled : Bool) (upstream : HLRequest → HLResponse)
    (account : ExchangeAccount) (since : Time) :
    Except FetchError (List TradeInput) × List HLRequest :=
  if canceled then (Except.error FetchError.ctxCanceled, [])
  else
    match parseUUID account.id with
    | none => (Except.error FetchError.invalidAccountID, [])
    | some accountUUID =>
      if account.accountIdentifier = "" then (Except.error FetchError.missingAddress, [])
      else
        let req := initialRequest account
        let resp := upstream req
        if resp.status = 429 then
          (Except.error (FetchError.rateLimited "hyperliquid" "rate limit exceeded"
            (parseRetryAfter resp.retryAfterHeader)), [req])
        else if ¬ resp.status = 200 then
          (Except.error (FetchError.httpError resp.status), [req])
        else
          match resp.body with
          | none => (Except.error FetchError.decodeError, [req])
          | some apiFills =>
            let trades := apiFills.filterMap (processFill since accountUUID)
            (Except.ok (trades.insertionSort tsLE), [req])

end Hyperliquid

/-! ## `models/trade.go` — the database-model numeric normalization -/

namespace Models

/-- A dynamically typed numeric-or-text value as `models.convertToString`
receives it (`interface{}`), one constructor per `switch` arm: text, a JSON
number (`float64`, modelled by its exact rational value — every concrete
rational used below is exactly representable as a `float64`), or an
`int`/`int64`. -/
inductive NumericWire where
  | str (s : String)
  | num (q : ℚ)
  | int (n : Int)
deriving Repr, DecidableEq

/-- Go `fmt.Sprintf("%.18f", val)` on the exact value of the float: sign,
integer part, and exactly 18 fraction digits of the correctly rounded value
(ties, which never arise below, round away from zero here; Go rounds them to
even).  `scaled` is `round(|q| * 10^18)`, computed on the reduced
numerator/denominator so that it evaluates inside the kernel:
`⌊|q| * 10^18 + 1/2⌋ = (2 * |num| * 10^18 + den) / (2 * den)`. -/
def sprintfF18 (q : ℚ) : String :=
  let neg := q.num < 0
  let scaled : Nat := (2 * q.num.natAbs * 10 ^ 18 + q.den) / (2 * q.den)
  let ip := scaled / 10 ^ 18
  let fp := scaled % 10 ^ 18
  (if neg then "-" else "") ++ toString ip ++ "." ++ padLeftZeros 18 (toString fp)

/-- `convertToString` from `models/trade.go`: text passes through; a number
is rendered with `%.18f` and then stripped of trailing zeros and of a
trailing decimal point; integers render in decimal. -/
def convertToString : NumericWire → String
  | NumericWire.str val => val
  | NumericWire.num val => trimRightChar (trimRightChar (sprintfF18 val) '0') '.'
  | NumericWire.int val => toString val

end Models

/-! ## `GetLatestFundingPayment` (`db/funding_payment.go`) -/

namespace Db

/-- The hidden 'order by timestamp' relation of the `GetLatestFundingPayment`
query: descending timestamps. -/
def tsDescLE (a b : FundingPayment) : Prop := b.timestampMs ≤ a.timestampMs

instance : DecidableRel tsDescLE := fun a b => Int.decLe b.timestampMs a.timestampMs

instance : IsTotal FundingPayment tsDescLE where
  total a b := (Int.le_total b.timestampMs a.timestampMs).imp id id

instance : IsTrans FundingPayment tsDescLE where
  trans _ _ _ hab hbc := Int.le_trans hbc hab

/-- The rows the GraphQL engine returns for the `GetLatestFundingPayment`
query, modelled from the query text in `db/funding_payment.go` (the engine
itself is an external collaborator): filter on `exchange_account_id`, order
by `timestamp` descending, `limit 1`. -/
def latestQueryRows (db : List FundingPayment) (exchangeAccountID : String) :
    List FundingPayment :=
  ((db.filter (fun p => p.exchangeAccountID == exchangeAccountID)).insertionSort
    tsDescLE).take 1

/-- `Client.GetLatestFundingPayment` from `db/funding_payment.go`:
a transport failure is wrapped and returned; an empty row set returns a nil
payment with a nil error; otherwise the first (latest) row is returned. -/
def GetLatestFundingPayment (db : List FundingPayment) (exchangeAccountID : String)
    (transportFailure : Option String) : Except String (Option FundingPayment) :=
  match transportFailure with
  | some e => Except.error ("failed to get latest funding payment: " ++ e)
  | none =>
    match latestQueryRows db exchangeAccountID with
    | [] => Except.ok none
    | p :: _ => Except.ok (some p)

end Db

/-! ## The exchange registry (`GetClient`) -/

namespace Exchange

/-- The registered exchange client implementations (the switch in `GetClient`
knows exactly one). -/
inductive ExchangeClientRef where
  | hyperliquid
deriving Repr, DecidableEq

/-- `Client.Name()` of the implementation `GetClient` hands out. -/
def clientName : ExchangeClientRef → String
  | ExchangeClientRef.hyperliquid => "hyperliquid"

/-- The sentinel errors a registry error can wrap (`errors.Is` targets). -/
inductive SentinelError where
  | exchangeNotFound
deriving Repr, DecidableEq

/-- An error built with `fmt.Errorf("%w: ...", sentinel, ...)`: the wrapped
sentinel (what `errors.Is` unwraps to) plus the formatted text. -/
structure WrappedError where
  wraps : SentinelError
  message : String
deriving Repr, DecidableEq

/-- `exchange.GetClient`: the name switch; `"hyperliquid"` yields the one
registered client, anything else a `nil` client (the `Except.error` branch)
with an error wrapping `ErrExchangeNotFound`. -/
def GetClient (name : String) : Except WrappedError ExchangeClientRef :=
  if name = "hyperliquid" then Except.ok ExchangeClientRef.hyperliquid
  else
    Except.error
      { wraps := SentinelError.exchangeNotFound
        message := "exchange not found: " ++ name }

end Exchange

/-! ## Concrete fixtures used by the theorems below -/

/-- A funding payment that is new to the store. -/
def paymentNew : FundingPaymentInput :=
  { exchangeAccountID := "acct-1", baseAsset := "BTC", quoteAsset := "USDC"
    amount := "10.5", timestampMs := 1700000000000, paymentID := "pA" }

/-- A funding payment whose `payment_id` already exists in the store. -/
def paymentDup : FundingPaymentInput :=
  { exchangeAccountID := "acct-1", baseAsset := "ETH", quoteAsset := "USDC"
    amount := "-5.25", timestampMs := 1700000000001, paymentID := "pB" }

/-- A backend whose batch insert of two records fails with the
unique-constraint message, whose single insert of `"pA"` succeeds, and whose
single insert of anything else fails with a non-duplicate transport error. -/
def mixedFailureExec : ExecOracle Unit := fun s inputs =>
  match inputs with
  | [_, _] => (s, Except.error "duplicate key value violates unique constraint")
  | [x] =>
    if x.paymentID = "pA" then (s, Except.ok [recordOf x])
    else (s, Except.error "connection refused")
  | _ => (s, Except.error "unexpected batch shape")

/-- A backend that fails every request with a non-duplicate error. -/
def alwaysFailingExec : ExecOracle Unit := fun s _ => (s, Except.error "boom")

/-- The fill of the repository's own `FetchTrades` unit test: transaction
hash `"0x123"` and per-fill id (`tid`) `111111111111111`. -/
def fillWithTid : HLFill :=
  { coin := "BTC-USDC", px := Hyperliquid.HLWire.str "50000.5"
    sz := Hyperliquid.HLWire.str "0.1", side := "B"
    time := TsValue.int64 1700000000000, hash := "0x123"
    tid := TsValue.int64 111111111111111
    oid := Hyperliquid.HLWire.int 123456789, fee := Hyperliquid.HLWire.str "5.0" }

/-- A fill whose per-fill unique identifier (`tid`) is missing (empty). -/
def fillMissingTid : HLFill :=
  { coin := "ETH-USDC", px := Hyperliquid.HLWire.str "3000.25"
    sz := Hyperliquid.HLWire.str "1.5", side := "S"
    time := TsValue.int64 1700000005000, hash := "0x456"
    tid := TsValue.str ""
    oid := Hyperliquid.HLWire.int 987654321, fee := Hyperliquid.HLWire.str "4.5" }

/-- The account of the repository's unit tests. -/
def testAccount : ExchangeAccount :=
  { id := "00000000-0000-0000-0000-000000000000"
    accountIdentifier := "0x1234567890123456789012345678901234567890" }

/-- An upstream that serves only the fill with the missing per-fill id. -/
def upstreamMissingTid : Hyperliquid.HLRequest → Hyperliquid.HLResponse :=
  fun _ => { status := 200, retryAfterHeader := "", body := some [fillMissingTid] }

/-- An upstream that serves the two test fills oldest-first. -/
def upstreamPair : Hyperliquid.HLRequest → Hyperliquid.HLResponse :=
  fun _ => { status := 200, retryAfterHeader := "", body := some [fillWithTid, fillMissingTid] }

/-- An upstream that serves the two test fills newest-first (out of order). -/
def upstreamPairDesc : Hyperliquid.HLRequest → Hyperliquid.HLResponse :=
  fun _ => { status := 200, retryAfterHeader := "", body := some [fillMissingTid, fillWithTid] }

/-- An upstream that serves an empty history. -/
def upstreamEmpty : Hyperliquid.HLRequest → Hyperliquid.HLResponse :=
  fun _ => { status := 200, retryAfterHeader := "", body := some [] }

/-- The transform of `fillWithTid` (note `tradeID` = the transaction hash). -/
def tradeWithTid : TradeInput :=
  { tradeID := "0x123", orderID := "123456789", baseAsset := "BTC"
    quoteAsset := "USDC", side := "buy", price := "50000.5", quantity := "0.1"
    fee := "5.0", timestamp := 1700000000000000000
    exchangeAccountID := "00000000-0000-0000-0000-000000000000" }

/-- The transform of `fillMissingTid`. -/
def tradeMissingTid : TradeInput :=
  { tradeID := "0x456", orderID := "987654321", baseAsset := "ETH"
    quoteAsset := "USDC", side := "sell", price := "3000.25", quantity := "1.5"
    fee := "4.5", timestamp := 1700000005000000000
    exchangeAccountID := "00000000-0000-0000-0000-000000000000" }

/-- The sorted transform of the two test fills. -/
def pairTrades : List TradeInput := [tradeWithTid, tradeMissingTid]

/-- The `i`-th fill of a synthetic full page (distinct per-millisecond
timestamps, ascending). -/
def fullPageFill (i : Nat) : HLFill :=
  { coin := "BTC", px := Hyperliquid.HLWire.str "1"
    sz := Hyperliquid.HLWire.str "1", side := "B"
    time := TsValue.int64 (1700000000000 + i), hash := "0xh" ++ toString i
    tid := TsValue.int64 (1 + i), oid := Hyperliquid.HLWire.int 1
    fee := Hyperliquid.HLWire.str "0" }

/-- A full page of 2000 fills — the upstream per-request cap of the
`userFills` endpoint. -/
def fullPage : List HLFill := (List.range 2000).map fullPageFill

/-- The greatest timestamp (in ms) appearing in `fullPage`. -/
def fullPageMaxMs : Int := 1700000001999

/-- A paginating upstream: the cursor-less request gets the full page; any
request carrying a `startTime` cursor gets the rest of the history (empty
here).  A paginating client would issue a second request at
`fullPageMaxMs + 1`; the code under analysis never does. -/
def pagedUpstream : Hyperliquid.HLRequest → Hyperliquid.HLResponse :=
  fun req =>
    match req.startTime with
    | none => { status := 200, retryAfterHeader := "", body := some fullPage }
    | some _ => { status := 200, retryAfterHeader := "", body := some [] }

/-- Stored funding payments of two accounts, for the latest-payment query. -/
def fpOldA : FundingPayment :=
  { exchangeAccountID := "acct-a", baseAsset := "BTC", quoteAsset := "USDC"
    amount := "1", timestampMs := 100, paymentID := "fp1" }

/-- A later payment of the same account. -/
def fpNewA : FundingPayment :=
  { exchangeAccountID := "acct-a", baseAsset := "ETH", quoteAsset := "USDC"
    amount := "2", timestampMs := 200, paymentID := "fp2" }

/-- A payment of a different account, with the globally greatest timestamp. -/
def fpOtherB : FundingPayment :=
  { exchangeAccountID := "acct-b", baseAsset := "SOL", quoteAsset := "USDC"
    amount := "3", timestampMs := 300, paymentID := "fp3" }

/-- The funding-payment store used by the latest-payment theorems. -/
def fpStore : List FundingPayment := [fpNewA, fpOldA, fpOtherB]

/-! ## Resilient batch persistence: theorems -/

/-- The batch error message of the unique-constraint backend matches the
duplicate patterns of `isDuplicateError`. -/
lemma isDuplicateError_unique_constraint :
    isDuplicateError "duplicate key value violates unique constraint" = true := by decide

/-- Against the unique-constraint backend, a single-record insert of
`paymentDup` into any store that already contains `"pB"` never returns, at
any recursion depth: the duplicate error triggers the per-record fallback,
which re-runs the same single-record insert one level deeper. -/
lemma addSingle_duplicate_diverges (fuel : Nat) :
    ∀ s : List String, s.contains "pB" = true →
      AddFundingPayments uniqueConstraintExec fuel s [paymentDup] = none := by
  induction fuel with
  | zero => intro s _; rfl
  | succ fuel ih =>
    intro s hs
    have hmem : "pB" ∈ s := by simpa using hs
    have hexec : uniqueConstraintExec s [paymentDup]
        = (s, Except.error "duplicate key value violates unique constraint") := by
      simp [uniqueConstraintExec, paymentDup, hmem]
    simp only [AddFundingPayments, List.length_cons, List.length_nil, hexec,
      isDuplicateError_unique_constraint, if_true,
      addFundingPaymentsIndividually, addIndividuallyLoop, ih s hs]
    rfl

/-- **C1.** The claim (and the code's own comments and duplicate-handling
test) say: when the batch insert fails as a duplicate, the call falls back to
per-record inserts, a record that individually fails as a duplicate
contributes zero results and no error, and a batch of `N` records with one
collision succeeds with `N − 1` insertions.  On the code as written the
per-record insert of the colliding record fails as a duplicate again and
recurses into the fallback indefinitely: with `"pB"` already stored, the
two-record batch `[paymentNew, paymentDup]` exhausts *every* recursion depth
(`none` for every fuel), i.e. `AddFundingPayments` never returns instead of
returning the one new record. -/
theorem C1_one_collision_batch_never_returns (fuel : Nat) :
    AddFundingPayments uniqueConstraintExec fuel ["pB"] [paymentNew, paymentDup] = none := by
  cases fuel with
  | zero => rfl
  | succ f =>
    have hexec : uniqueConstraintExec ["pB"] [paymentNew, paymentDup]
        = (["pB"], Except.error "duplicate key value violates unique constraint") := rfl
    simp only [AddFundingPayments, List.length_cons, List.length_nil, hexec,
      isDuplicateError_unique_constraint, if_true,
      addFundingPaymentsIndividually, addIndividuallyLoop]
    cases f with
    | zero => rfl
    | succ g =>
      have hnew : AddFundingPayments uniqueConstraintExec (Nat.succ g) ["pB"] [paymentNew]
          = some (["pB", "pA"], Except.ok [recordOf paymentNew]) := by
        rfl
      have hdup := addSingle_duplicate_diverges (Nat.succ g) ["pB", "pA"] (by decide)
      simp only [hnew, addIndividuallyLoop, hdup]
      simp

/-- The per-record fallback loop never produces an error value: every
element either extends the accumulator, is dropped, or exhausts the fuel. -/
lemma addIndividuallyLoop_ok {σ : Type}
    (insertOne : σ → FundingPaymentInput → Option (σ × Except String (List FundingPayment))) :
    ∀ (inputs : List FundingPaymentInput) (s : σ) (acc : List FundingPayment)
      (out : σ × Except String (List FundingPayment)),
      addIndividuallyLoop insertOne s inputs acc = some out → ∃ l, out.2 = Except.ok l := by
  intro inputs
  induction inputs with
  | nil =>
    intro s acc out h
    simp only [addIndividuallyLoop, Option.some.injEq] at h
    exact ⟨acc, by rw [← h]⟩
  | cons input rest ih =>
    intro s acc out h
    simp only [addIndividuallyLoop] at h
    cases hins : insertOne s input with
    | none => rw [hins] at h; exact absurd h (by simp)
    | some res =>
      rw [hins] at h
      obtain ⟨s2, r⟩ := res
      cases r with
      | ok payments => exact ih s2 (acc ++ payments) out h
      | error e => exact ih s2 acc out h

/-- **C4, counterexample.** The claim says a per-record fallback insert that
fails with a *non-duplicate* error makes the whole call fail with that error.
Concretely: the batch `[paymentNew, paymentDup]` fails as a duplicate, the
fallback inserts `paymentNew` successfully, the fallback insert of
`paymentDup` fails with `"connection refused"` — which is not a duplicate
error — and yet the call *succeeds*, returning the one inserted record and
no error. -/
theorem C4_counterexample_non_duplicate_failure_absorbed :
    AddFundingPayments mixedFailureExec 3 () [paymentNew, paymentDup]
      = some ((), Except.ok [recordOf paymentNew]) ∧
    isDuplicateError "connection refused" = false := by
  exact ⟨rfl, by decide⟩

/-- **C4, amended.** During the per-record fallback of `AddFundingPayments`,
individual record failures of *any* kind — duplicate or not — are absorbed:
the failed record contributes nothing and the fallback, whenever it returns,
returns success with the records that did insert.  Only a non-duplicate
failure of the *initial batch* insert fails the call with the underlying
error. -/
theorem C4_fallback_absorbs_all_individual_failures :
    (∀ (σ : Type)
       (insertOne : σ → FundingPaymentInput → Option (σ × Except String (List FundingPayment)))
       (s : σ) (inputs : List FundingPaymentInput)
       (out : σ × Except String (List FundingPayment)),
       addFundingPaymentsIndividually insertOne s inputs = some out →
       ∃ l, out.2 = Except.ok l) ∧
    (∀ (σ : Type) (exec : ExecOracle σ) (fuel : Nat) (s s2 : σ)
       (inputs : List FundingPaymentInput) (e : String),
       inputs ≠ [] → exec s inputs = (s2, Except.error e) → isDuplicateError e = false →
       AddFundingPayments exec (fuel + 1) s inputs
         = some (s2, Except.error ("failed to add funding payments: " ++ e))) := by
  constructor
  · intro σ insertOne s inputs out h
    rw [addFundingPaymentsIndividually] at h
    exact addIndividuallyLoop_ok insertOne inputs s [] out h
  · intro σ exec fuel s s2 inputs e hne hexec hdup
    have hlen : ¬ inputs.length = 0 := by
      simpa [List.length_eq_zero] using hne
    simp [AddFundingPayments, hlen, hexec, hdup]

/-- **C4, amended — witness.**  The fallback run of `mixedFailureExec`
(one success, one non-duplicate failure) returns `Except.ok`, and a batch
whose insert fails with the non-duplicate `"boom"` fails the call with the
wrapped error. -/
theorem C4_fallback_absorbs_witness :
    (∃ l, (((), Except.ok [recordOf paymentNew]) :
        Unit × Except String (List FundingPayment)).2 = Except.ok l) ∧
    AddFundingPayments alwaysFailingExec 1 () [paymentNew]
      = some ((), Except.error ("failed to add funding payments: " ++ "boom")) := by
  constructor
  · exact C4_fallback_absorbs_all_individual_failures.1 Unit
      (fun s3 input => AddFundingPayments mixedFailureExec 2 s3 [input]) ()
      [paymentNew, paymentDup] ((), Except.ok [recordOf paymentNew]) rfl
  · exact C4_fallback_absorbs_all_individual_failures.2 Unit alwaysFailingExec 0 () ()
      [paymentNew] "boom" (by simp) rfl (by decide)

/-! ## The Hyperliquid fetch path: theorems -/

/-- **C2.** The claim (with the repository's own `FetchTrades` unit test and
the `tid` field's declared purpose) says: a fill without a non-empty per-fill
identifier aborts the call with `MissingRequiredField`, and every returned
`tradeID` is the per-fill identifier, never a transaction-level hash.  The
code instead: (i) on the test fill carrying `tid = 111111111111111` it
returns the transaction hash `"0x123"` as the trade id (the test expects
`"111111111111111"`); (ii) on a fill whose `tid` is empty it does not fail at
all — the call succeeds and returns the record, with the hash as its id. -/
theorem C2_trade_id_is_transaction_hash :
    (Hyperliquid.transformFill fillWithTid "u0").map (fun t => t.tradeID)
      = Except.ok "0x123" ∧
    fillWithTid.tid = TsValue.int64 111111111111111 ∧
    (Hyperliquid.FetchTrades false upstreamMissingTid testAccount timeZero).1.map
      (fun l => l.map (fun t => t.tradeID)) = Except.ok ["0x456"] := by
  exact ⟨rfl, rfl, rfl⟩

/-- Whenever `FetchTrades` gets past its input validation it issues exactly
one upstream request — the cursor-less `initialRequest` — regardless of the
status, body, or size of the response. -/
lemma fetchTrades_requests (upstream : Hyperliquid.HLRequest → Hyperliquid.HLResponse)
    (account : ExchangeAccount) (since : Time)
    (h2 : (parseUUID account.id).isSome = true)
    (h3 : ¬ account.accountIdentifier = "") :
    (Hyperliquid.FetchTrades false upstream account since).2
      = [Hyperliquid.initialRequest account] := by
  obtain ⟨u, hu⟩ := Option.isSome_iff_exists.mp h2
  simp only [Hyperliquid.FetchTrades, Bool.false_eq_true, if_false, hu, h3]
  split
  · rfl
  · split
    · rfl
    · cases (upstream (Hyperliquid.initialRequest account)).body <;> rfl

/-- **C3, counterexample.** The claim says that after a page whose size
reaches the server's per-request cap (2000 for `userFills`), the next request
is issued with its cursor set to (max timestamp seen) + 1 ms.  Against an
upstream whose cursor-less page is exactly 2000 fills (max timestamp
`fullPageMaxMs`), the call issues exactly one request, the cursor-less one —
no request carrying `startTime = fullPageMaxMs + 1` (or any cursor at all) is
ever sent. -/
theorem C3_counterexample_no_second_page_request :
    fullPage.length = 2000 ∧
    (Hyperliquid.FetchTrades false pagedUpstream testAccount timeZero).2
      = [Hyperliquid.initialRequest testAccount] ∧
    (Hyperliquid.initialRequest testAccount).startTime = none := by
  refine ⟨by simp [fullPage], ?_, rfl⟩
  exact fetchTrades_requests pagedUpstream testAccount timeZero (by decide) (by decide)

/-- **C3, amended.** `FetchTrades` does not paginate: past input validation
it issues exactly one upstream request, which carries no cursor
(`startTime` absent), and the call then terminates whatever the response —
in particular a full page does not trigger a follow-up request at
(max timestamp) + 1 ms, and no upstream behaviour can make the call loop. -/
theorem C3_single_cursorless_request (canceled : Bool)
    (upstream : Hyperliquid.HLRequest → Hyperliquid.HLResponse)
    (account : ExchangeAccount) (since : Time)
    (h1 : canceled = false)
    (h2 : (parseUUID account.id).isSome = true)
    (h3 : ¬ account.accountIdentifier = "") :
    (Hyperliquid.FetchTrades canceled upstream account since).2
      = [Hyperliquid.initialRequest account] ∧
    (Hyperliquid.initialRequest account).startTime = none := by
  subst h1
  exact ⟨fetchTrades_requests upstream account since h2 h3, rfl⟩

/-- **C3, amended — witness** at a concrete account and upstream. -/
theorem C3_single_cursorless_request_witness :
    (Hyperliquid.FetchTrades false upstreamEmpty testAccount timeZero).2
      = [Hyperliquid.initialRequest testAccount] ∧
    (Hyperliquid.initialRequest testAccount).startTime = none :=
  C3_single_cursorless_request false upstreamEmpty testAccount timeZero rfl
    (by decide) (by decide)

/-! ## Timestamp parsing: theorems -/

/-- **C5, counterexample.** The claim says an input matching none of the
accepted timestamp forms fails with a `MalformedTimestamp` error condition.
`parseTimestamp` cannot fail — its Go signature returns a bare `time.Time` —
and on the unparseable text `"not-a-timestamp"` it returns the zero
timestamp as an ordinary value, where the spec-modelled parser returns the
`MalformedTimestamp` error. -/
theorem C5_counterexample_no_error_condition :
    Hyperliquid.parseTimestamp (TsValue.str "not-a-timestamp") = timeZero ∧
    Hyperliquid.parseTimestampSpec (TsValue.str "not-a-timestamp")
      = Except.error Hyperliquid.TsError.malformedTimestamp := by
  exact ⟨by decide, rfl⟩

/-- **C5, amended.** Timestamp parsing accepts milliseconds-since-epoch as a
number (`float64` truncated toward zero, or `int64`), as numeric text, or as
an RFC-3339 string; on *every* other input it returns the zero timestamp and
signals no error condition at all.  (The always-UTC part of the claim is not
observable in the instant-level time model.) -/
theorem C5_unaccepted_input_silently_zero (v : TsValue) :
    (Hyperliquid.acceptedTimestampForm v = false →
      Hyperliquid.parseTimestamp v = timeZero) ∧
    (∀ s ms, v = TsValue.str s → goParseInt64 s = some ms →
      Hyperliquid.parseTimestamp v = unixMilliToTime ms) ∧
    (∀ n, v = TsValue.int64 n → Hyperliquid.parseTimestamp v = unixMilliToTime n) := by
  refine ⟨?_, ?_, ?_⟩
  · intro hacc
    cases v with
    | num q => simp [Hyperliquid.acceptedTimestampForm] at hacc
    | int64 n => simp [Hyperliquid.acceptedTimestampForm] at hacc
    | str s =>
      cases hgi : goParseInt64 s with
      | some ms => simp [Hyperliquid.acceptedTimestampForm, hgi] at hacc
      | none =>
        cases hrf : rfc3339Parse s with
        | some t => simp [Hyperliquid.acceptedTimestampForm, hgi, hrf] at hacc
        | none => simp [Hyperliquid.parseTimestamp, hgi, hrf]
    | other => rfl
  · intro s ms hv hms
    subst hv
    simp [Hyperliquid.parseTimestamp, hms]
  · intro n hv
    subst hv
    rfl

/-- **C5, amended — witness**: unaccepted text gives the zero timestamp;
numeric text gives the denoted millisecond instant. -/
theorem C5_unaccepted_input_silently_zero_witness :
    Hyperliquid.parseTimestamp (TsValue.str "zzz") = timeZero ∧
    Hyperliquid.parseTimestamp (TsValue.str "1700000000000")
      = unixMilliToTime 1700000000000 :=
  ⟨(C5_unaccepted_input_silently_zero (TsValue.str "zzz")).1 (by decide),
   (C5_unaccepted_input_silently_zero (TsValue.str "1700000000000")).2.1
     "1700000000000" 1700000000000 rfl (by decide)⟩

/-! ## Numeric-to-text conversion: theorems -/

/-- **C6, counterexample.** The claim says every decimal input renders to
text that parses back to the same decimal value.  The `models` package's
`convertToString` renders a `float64` with `%.18f` and strips trailing
zeros: the nonzero value 2⁻⁶³ ≈ 1.08 · 10⁻¹⁹ (exactly representable as a
`float64`, so the source representation introduced no loss) renders as
`"0"`, which parses back to zero, not to 2⁻⁶³. -/
theorem C6_counterexample_tiny_value_collapses :
    Models.convertToString (Models.NumericWire.num (mkRat 1 (2 ^ 63))) = "0" ∧
    mkRat 1 (2 ^ 63) ≠ 0 := by
  exact ⟨by decide, by decide⟩

/-- **C6, amended.** Text inputs pass through `convertToString` unchanged
(and hence round-trip exactly), and integer inputs render in plain decimal;
but native-number inputs do not round-trip in general: every positive value
below half of 10⁻¹⁸ (the hypothesis `2·num·10¹⁸ < den`) renders as the text
`"0"`. -/
theorem C6_text_roundtrips_tiny_numbers_collapse (q : ℚ) :
    (∀ s, Models.convertToString (Models.NumericWire.str s) = s) ∧
    (∀ n : Int, Models.convertToString (Models.NumericWire.int n) = toString n) ∧
    (0 < q → 2 * q.num * 10 ^ 18 < (q.den : Int) →
      Models.convertToString (Models.NumericWire.num q) = "0") := by
  refine ⟨fun s => rfl, fun n => rfl, fun hq hlt => ?_⟩
  have hnum : 0 < q.num := Rat.num_pos.mpr hq
  have habs : (q.num.natAbs : Int) = q.num := Int.natAbs_of_nonneg (le_of_lt hnum)
  have hscaled : (2 * q.num.natAbs * 10 ^ 18 + q.den) / (2 * q.den) = 0 := by
    apply Nat.div_eq_of_lt
    have h10 : (10 : Int) ^ 18 = 1000000000000000000 := by norm_num
    have h10n : (10 : Nat) ^ 18 = 1000000000000000000 := by norm_num
    rw [h10] at hlt
    rw [h10n]
    omega
  have hsprintf : Models.sprintfF18 q = "0.000000000000000000" := by
    simp only [Models.sprintfF18, hscaled, Nat.zero_div, Nat.zero_mod,
      if_neg (not_lt.mpr (le_of_lt hnum))]
    decide
  simp only [Models.convertToString, hsprintf]
  decide

/-- **C6, amended — witness** at the text `"10.5"` , the integer `7`, and
the positive value 10⁻¹⁹. -/
theorem C6_text_roundtrips_witness :
    Models.convertToString (Models.NumericWire.str "10.5") = "10.5" ∧
    Models.convertToString (Models.NumericWire.int 7) = toString (7 : Int) ∧
    Models.convertToString (Models.NumericWire.num (mkRat 1 (10 ^ 19))) = "0" :=
  ⟨(C6_text_roundtrips_tiny_numbers_collapse 0).1 "10.5",
   (C6_text_roundtrips_tiny_numbers_collapse 0).2.1 7,
   (C6_text_roundtrips_tiny_numbers_collapse (mkRat 1 (10 ^ 19))).2.2
     (by decide) (by decide)⟩

/-! ## Watermark filtering and output ordering: theorems -/

/-- Inversion of a successful `FetchTrades` run: the account validated, the
initial request's body decoded to some fill page, and the result is the
sorted transform of that one page. -/
lemma fetchTrades_ok_inv {canceled : Bool}
    {upstream : Hyperliquid.HLRequest → Hyperliquid.HLResponse}
    {account : ExchangeAccount} {since : Time}
    {trades : List TradeInput} {log : List Hyperliquid.HLRequest}
    (h : Hyperliquid.FetchTrades canceled upstream account since = (Except.ok trades, log)) :
    ∃ u fills, parseUUID account.id = some u ∧
      (upstream (Hyperliquid.initialRequest account)).body = some fills ∧
      trades = ((fills.filterMap (Hyperliquid.processFill since u)).insertionSort
        Hyperliquid.tsLE) := by
  simp only [Hyperliquid.FetchTrades] at h
  split at h
  · exact absurd h (by simp)
  · split at h
    · exact absurd h (by simp)
    · next u hu =>
      split at h
      · exact absurd h (by simp)
      · split at h
        · exact absurd h (by simp)
        · split at h
          · exact absurd h (by simp)
          · split at h
            · exact absurd h (by simp)
            · next fills hbody =>
              refine ⟨u, fills, hu, hbody, ?_⟩
              have h1 := congrArg Prod.fst h
              simpa using h1.symm

/-- A fill that survives `processFill` was either not filtered (zero
watermark) or has a timestamp at or after the watermark. -/
lemma processFill_since {since : Time} {u : String} {fill : HLFill} {t : TradeInput}
    (h : Hyperliquid.processFill since u fill = some t) :
    since = timeZero ∨ since ≤ t.timestamp := by
  simp only [Hyperliquid.processFill, Hyperliquid.transformFill] at h
  split at h
  · exact absurd h (by simp)
  · next hcond =>
    by_cases hz : since = timeZero
    · exact Or.inl hz
    · right
      have hlt : ¬ Hyperliquid.parseTimestamp fill.time < since :=
        fun hl => hcond ⟨hz, hl⟩
      have hle := not_lt.mp hlt
      have ht := Option.some.inj h
      rw [← ht]
      exact hle

/-- With the zero watermark, no fill is filtered and no transform fails, so
`processFill` always produces a record. -/
lemma processFill_zero_isSome (u : String) (fill : HLFill) :
    (Hyperliquid.processFill timeZero u fill).isSome = true := by
  simp [Hyperliquid.processFill, Hyperliquid.transformFill]

/-- `filterMap` over a function that succeeds on every element preserves the
length. -/
lemma length_filterMap_all_some {α β : Type} (f : α → Option β) :
    ∀ l : List α, (∀ a ∈ l, (f a).isSome = true) →
      (l.filterMap f).length = l.length := by
  intro l
  induction l with
  | nil => intro _; rfl
  | cons a l ih =>
    intro h
    cases hfa : f a with
    | none =>
      have := h a (by simp)
      rw [hfa] at this
      exact absurd this (by simp)
    | some b =>
      simp [List.filterMap_cons, hfa, ih (fun x hx => h x (by simp [hx]))]

/-- **C7.** Every record of a successful `fetchTrades` run satisfies
`timestamp ≥ since` (vacuously when `since` is the zero watermark, whose
filter branch is skipped), and with the zero watermark no record of the
decoded page is dropped: all history is returned. -/
theorem C7_watermark_filter (canceled : Bool)
    (upstream : Hyperliquid.HLRequest → Hyperliquid.HLResponse)
    (account : ExchangeAccount) (since : Time)
    (trades : List TradeInput) (log : List Hyperliquid.HLRequest)
    (h : Hyperliquid.FetchTrades canceled upstream account since = (Except.ok trades, log)) :
    (∀ t ∈ trades, since = timeZero ∨ since ≤ t.timestamp) ∧
    (since = timeZero →
      ∀ fills, (upstream (Hyperliquid.initialRequest account)).body = some fills →
        trades.length = fills.length) := by
  obtain ⟨u, fills, hu, hbody, htr⟩ := fetchTrades_ok_inv h
  constructor
  · intro t ht
    rw [htr] at ht
    have ht2 : t ∈ fills.filterMap (Hyperliquid.processFill since u) :=
      (List.perm_insertionSort _ _).mem_iff.mp ht
    obtain ⟨fill, _, hsome⟩ := List.mem_filterMap.mp ht2
    exact processFill_since hsome
  · intro hz fills2 hbody2
    rw [hbody2] at hbody
    obtain rfl : fills = fills2 := (Option.some.inj hbody).symm
    subst hz
    rw [htr, (List.perm_insertionSort _ _).length_eq]
    exact length_filterMap_all_some _ fills (fun a _ => processFill_zero_isSome u a)

/-- **C7 — witness**: with a nonzero watermark equal to the older fill's
timestamp both records pass the filter, and with the zero watermark the
output has one record per upstream fill. -/
theorem C7_watermark_filter_witness :
    (unixMilliToTime 1700000000000 = timeZero ∨
      unixMilliToTime 1700000000000 ≤ tradeWithTid.timestamp) ∧
    pairTrades.length = [fillWithTid, fillMissingTid].length := by
  constructor
  · exact (C7_watermark_filter false upstreamPair testAccount
      (unixMilliToTime 1700000000000) pairTrades
      [Hyperliquid.initialRequest testAccount] rfl).1 tradeWithTid (by decide)
  · exact (C7_watermark_filter false upstreamPair testAccount timeZero pairTrades
      [Hyperliquid.initialRequest testAccount] rfl).2 rfl
      [fillWithTid, fillMissingTid] rfl

/-- **C8.** The sequence a successful `fetchTrades` run returns is
non-decreasing by timestamp — oldest first — whatever the order of the
upstream page. -/
theorem C8_output_sorted_by_timestamp (canceled : Bool)
    (upstream : Hyperliquid.HLRequest → Hyperliquid.HLResponse)
    (account : ExchangeAccount) (since : Time)
    (trades : List TradeInput) (log : List Hyperliquid.HLRequest)
    (h : Hyperliquid.FetchTrades canceled upstream account since = (Except.ok trades, log)) :
    trades.Pairwise (fun a b => a.timestamp ≤ b.timestamp) := by
  obtain ⟨u, fills, hu, hbody, htr⟩ := fetchTrades_ok_inv h
  rw [htr]
  exact List.sorted_insertionSort Hyperliquid.tsLE _

/-- **C8 — witness**: the upstream serves the newer fill first, the output
still comes back oldest-first. -/
theorem C8_output_sorted_witness :
    tradeWithTid.timestamp ≤ tradeMissingTid.timestamp := by
  have h := C8_output_sorted_by_timestamp false upstreamPairDesc testAccount timeZero
    pairTrades [Hyperliquid.initialRequest testAccount] rfl
  exact List.rel_of_pairwise_cons h (by simp [pairTrades])

/-! ## Latest funding payment and client registry: theorems -/

/-- **C9.** `GetLatestFundingPayment` (with the backend reachable) returns a
nil payment and a nil error exactly when the account has no stored funding
payments; and any payment it does return belongs to the account and carries
the account's greatest stored timestamp. -/
theorem C9_latest_payment (db : List FundingPayment) (acct : String) :
    (db.filter (fun p => p.exchangeAccountID == acct) = [] ↔
      Db.GetLatestFundingPayment db acct none = Except.ok none) ∧
    (∀ p, Db.GetLatestFundingPayment db acct none = Except.ok (some p) →
      p.exchangeAccountID = acct ∧
      ∀ q ∈ db, q.exchangeAccountID = acct → q.timestampMs ≤ p.timestampMs) := by
  constructor
  · constructor
    · intro hempty
      simp [Db.GetLatestFundingPayment, Db.latestQueryRows, hempty]
    · intro hres
      by_contra hne
      have hlen : ((db.filter (fun p => p.exchangeAccountID == acct)).insertionSort
          Db.tsDescLE).length ≠ 0 := by
        rw [(List.perm_insertionSort _ _).length_eq]
        simpa [List.length_eq_zero] using hne
      cases hsort : (db.filter (fun p => p.exchangeAccountID == acct)).insertionSort
          Db.tsDescLE with
      | nil => rw [hsort] at hlen; exact hlen rfl
      | cons phead ptail =>
        rw [Db.GetLatestFundingPayment] at hres
        rw [Db.latestQueryRows, hsort] at hres
        simp at hres
  · intro p hp
    rw [Db.GetLatestFundingPayment, Db.latestQueryRows] at hp
    cases hsort : (db.filter (fun p => p.exchangeAccountID == acct)).insertionSort
        Db.tsDescLE with
    | nil => rw [hsort] at hp; simp at hp
    | cons phead ptail =>
      rw [hsort] at hp
      simp only [List.take_succ_cons, List.take_zero] at hp
      obtain rfl : phead = p := by simpa using hp
      have hmem : phead ∈ (db.filter (fun r => r.exchangeAccountID == acct)).insertionSort
          Db.tsDescLE := by rw [hsort]; exact List.mem_cons_self _ _
      have hmemf : phead ∈ db.filter (fun r => r.exchangeAccountID == acct) :=
        (List.perm_insertionSort _ _).mem_iff.mp hmem
      have hid : phead.exchangeAccountID = acct := by
        have := (List.mem_filter.mp hmemf).2
        simpa using this
      refine ⟨hid, fun q hq hqid => ?_⟩
      have hqf : q ∈ db.filter (fun r => r.exchangeAccountID == acct) :=
        List.mem_filter.mpr ⟨hq, by simpa using hqid⟩
      have hqs : q ∈ (db.filter (fun r => r.exchangeAccountID == acct)).insertionSort
          Db.tsDescLE := (List.perm_insertionSort _ _).mem_iff.mpr hqf
      rw [hsort] at hqs
      rcases List.mem_cons.mp hqs with rfl | hqtail
      · exact le_refl _
      · have hsorted := List.sorted_insertionSort Db.tsDescLE
          (db.filter (fun r => r.exchangeAccountID == acct))
        rw [hsort] at hsorted
        exact List.rel_of_pairwise_cons hsorted hqtail

/-- **C9 — witness**: an empty store gives a nil payment with a nil error,
and in `fpStore` the returned payment for `"acct-a"` dominates the older
payment's timestamp. -/
theorem C9_latest_payment_witness :
    Db.GetLatestFundingPayment ([] : List FundingPayment) "acct-z" none = Except.ok none ∧
    fpOldA.timestampMs ≤ fpNewA.timestampMs := by
  constructor
  · exact (C9_latest_payment [] "acct-z").1.mp rfl
  · exact ((C9_latest_payment fpStore "acct-a").2 fpNewA rfl).2 fpOldA
      (by decide) rfl

/-- **C10.** `GetClient "hyperliquid"` returns the (non-nil) registered
client whose `Name()` is `"hyperliquid"`; every other name — the empty
string included — yields a nil client (the error branch) whose error wraps
`ErrExchangeNotFound`. -/
theorem C10_registry_lookup (name : String) :
    (Exchange.GetClient "hyperliquid" = Except.ok Exchange.ExchangeClientRef.hyperliquid ∧
      Exchange.clientName Exchange.ExchangeClientRef.hyperliquid = "hyperliquid") ∧
    (¬ name = "hyperliquid" →
      Exchange.GetClient name = Except.error
        { wraps := Exchange.SentinelError.exchangeNotFound
          message := "exchange not found: " ++ name }) := by
  refine ⟨⟨rfl, rfl⟩, fun h => ?_⟩
  simp [Exchange.GetClient, h]

/-- **C10 — witness** at the empty name. -/
theorem C10_registry_lookup_witness :
    Exchange.GetClient "" = Except.error
      { wraps := Exchange.SentinelError.exchangeNotFound
        message := "exchange not found: " ++ "" } :=
  (C10_registry_lookup "").2 (by decide)

end ZifLib
